import Mathlib

/-!
Verification development for the honda-store API (Firebase cloud functions).

The source keeps three Firestore collections: products, carts and users.
A cart document has an owner, a status string (pending or completed) and a
string-keyed map of lines, each line holding a price snapshot and a quantity.
We embed the store as explicit state: carts as a list of documents (list
order standing for store order, so that docs[0] of a filtered query is the
first matching element), and the product catalog as an association list.

JavaScript numbers are embedded through a linearly ordered type with zero
and addition, the only structure the functions use on numbers; theorems
hold for any such type and concrete runs instantiate it at Int, or at Rat
where a claim turns on non-integer values (every concrete value the claims
exercise, small integers and five halves, is exact in IEEE doubles as well).

Each exported cloud function becomes a Lean function from the state and the
call arguments to an Except value: an HttpsError tag on the throw paths, or
the updated state on success.  The functions are translated clause by clause
from src/functions/src/index.ts.
-/

set_option linter.unusedSectionVars false

namespace HondaStore

/-- Error taxonomy of HttpsError codes thrown by the functions. -/
inductive HttpsErr where
  | unauthenticated
  | invalidArgument
  | notFound
  | unavailable
  | permissionDenied
  deriving DecidableEq

deriving instance DecidableEq for Except

/-- ProductData, as in index.ts. -/
structure ProductData (α : Type) where
  title : String
  description : String
  price : α
  stock : α
  active : Bool
  brand : String
  tags : List String
  owner : String
  image_url : String
  deriving DecidableEq

/-- One entry of a cart's products map: id, price snapshot, quantity. -/
structure CartLine (α : Type) where
  id : String
  price : α
  quantity : α
  deriving DecidableEq

/-- CartData, as in index.ts; the products map as an association list
(JavaScript object keys keep insertion order, existing keys keep position). -/
structure CartDoc (α : Type) where
  owner : String
  status : String
  products : List (String × CartLine α)
  deriving DecidableEq

/-- The Firestore state visible to the functions: the carts collection in
store order and the products catalog. -/
structure StoreState (α : Type) where
  carts : List (CartDoc α)
  products : List (String × ProductData α)
  deriving DecidableEq

variable {α : Type} [LinearOrder α] [Zero α] [Add α]

/-- Lookup of a key in a products map (JavaScript property access). -/
def lookupLine : List (String × CartLine α) → String → Option (CartLine α)
  | [], _ => none
  | (k, v) :: rest, pid => if k = pid then some v else lookupLine rest pid

/-- In-place update of the value at a key, keys and order untouched
(JavaScript updatedProducts[pid].quantity mutation). -/
def mapLine : List (String × CartLine α) → String → (CartLine α → CartLine α) →
    List (String × CartLine α)
  | [], _, _ => []
  | (k, v) :: rest, pid, f =>
      if k = pid then (k, f v) :: rest else (k, v) :: mapLine rest pid f

/-- Deletion of a key (JavaScript delete updatedProducts[pid]). -/
def removeLineKey (prods : List (String × CartLine α)) (pid : String) :
    List (String × CartLine α) :=
  prods.filter (fun kv => decide (kv.1 ≠ pid))

/-- Catalog lookup by document id. -/
def findProduct (s : StoreState α) (pid : String) : Option (ProductData α) :=
  match s.products.find? (fun kv => kv.1 == pid) with
  | none => none
  | some kv => some kv.2

/-- The predicate of the pending-cart query:
owner == userId and status == pending. -/
def isPendingOf (u : String) (c : CartDoc α) : Bool :=
  decide (c.owner = u ∧ c.status = "pending")

/-- The documents returned by getCurrentPendingCartRef, in store order. -/
def pendingCarts (s : StoreState α) (u : String) : List (CartDoc α) :=
  s.carts.filter (isPendingOf u)

/-- docs[0] of the pending-cart query. -/
def firstPending (s : StoreState α) (u : String) : Option (CartDoc α) :=
  (pendingCarts s u).head?

/-- Number of pending carts an owner has. -/
def pendingCount (s : StoreState α) (u : String) : Nat :=
  (pendingCarts s u).length

/-- Apply f to the first list element satisfying p, keeping the rest
(updating docs[0] of the query through its document reference). -/
def updateFirstWhere (p : CartDoc α → Bool) (f : CartDoc α → CartDoc α) :
    List (CartDoc α) → List (CartDoc α)
  | [] => []
  | c :: cs => if p c then f c :: cs else c :: updateFirstWhere p f cs

/-- Whitespace as String.prototype.trim strips it (the common cases). -/
def isWhitespaceChar (c : Char) : Bool :=
  decide (c = ' ' ∨ c = '\t' ∨ c = '\n' ∨ c = '\r')

/-- trim of a string: leading and trailing whitespace removed. -/
def trimString (v : String) : String :=
  ⟨((v.data.dropWhile isWhitespaceChar).reverse.dropWhile
      isWhitespaceChar).reverse⟩

/-- validateEmptyStringField: throws invalid-argument when the value is
falsy (empty) or trims to the empty string. -/
def validateEmptyStringField (v : String) : Except HttpsErr Unit :=
  if v = "" ∨ trimString v = "" then .error .invalidArgument else .ok ()

/-- validatePositiveNumberField of index.ts: !fieldValue || fieldValue <= 0.
The falsy numbers embedded here are exactly 0, so the check fails precisely
on values less than or equal to zero; integrality is not checked. -/
def validatePositiveNumberField (v : α) : Except HttpsErr Unit :=
  if v = 0 ∨ v ≤ 0 then .error .invalidArgument else .ok ()

/-- validatePositiveNonZeroNumberField of the unnamed HTTP variant: after the
typeof-number check it rejects fieldValue <= 0 (and the IEEE infinity, which
our number types do not contain); it rejects exactly v ≤ 0. -/
def validatePositiveNonZeroNumberField (v : α) : Except HttpsErr Unit :=
  if v ≤ 0 then .error .invalidArgument else .ok ()

/-- getProductDataById: not-found when no catalog document has the id. -/
def getProductDataById (s : StoreState α) (pid : String) :
    Except HttpsErr (ProductData α) :=
  match findProduct s pid with
  | none => .error .notFound
  | some p => .ok p

/-- checkProductActive: unavailable when the active flag is not set. -/
def checkProductActive (p : ProductData α) : Except HttpsErr Unit :=
  if p.active = false then .error .unavailable else .ok ()

/-- checkProductStock: unavailable when stock <= 0, or when the quantity is
truthy (nonzero) and stock < quantity. -/
def checkProductStock (p : ProductData α) (q : α) : Except HttpsErr Unit :=
  if p.stock ≤ 0 then .error .unavailable
  else if q ≠ 0 ∧ p.stock < q then .error .unavailable
  else .ok ()

/-- Merge step of add_product_to_cart on an existing cart's products map:
increment the quantity of an existing line (price snapshot untouched), or
append a fresh line with the live product price. -/
def mergeAddLine (prods : List (String × CartLine α)) (pid : String)
    (price q : α) : List (String × CartLine α) :=
  match lookupLine prods pid with
  | some _ => mapLine prods pid (fun l => { l with quantity := l.quantity + q })
  | none => prods ++ [(pid, ⟨pid, price, q⟩)]

/-- add_product_to_cart: validate arguments, read the pending-cart query,
resolve the product, check active and stock, then either create a fresh
pending cart with a single line or merge into the first pending cart. -/
def addProductToCart (s : StoreState α) (u pid : String) (q : α) :
    Except HttpsErr (StoreState α) :=
  match validateEmptyStringField pid with
  | .error e => .error e
  | .ok _ =>
  match validatePositiveNumberField q with
  | .error e => .error e
  | .ok _ =>
  match getProductDataById s pid with
  | .error e => .error e
  | .ok prod =>
  match checkProductActive prod with
  | .error e => .error e
  | .ok _ =>
  match checkProductStock prod q with
  | .error e => .error e
  | .ok _ =>
    if (pendingCarts s u).isEmpty then
      let newCart : CartDoc α := ⟨u, "pending", [(pid, ⟨pid, prod.price, q⟩)]⟩
      .ok { s with carts := s.carts ++ [newCart] }
    else
      let f : CartDoc α → CartDoc α :=
        fun c => { c with products := mergeAddLine c.products pid prod.price q }
      .ok { s with carts := updateFirstWhere (isPendingOf u) f s.carts }

/-- remove_product_from_cart: validate the id, require a pending cart and an
existing line, then delete the mapping key.  The catalog is never consulted. -/
def removeProductFromCart (s : StoreState α) (u pid : String) :
    Except HttpsErr (StoreState α) :=
  match validateEmptyStringField pid with
  | .error e => .error e
  | .ok _ =>
  match firstPending s u with
  | none => .error .notFound
  | some c =>
  match lookupLine c.products pid with
  | none => .error .notFound
  | some _ =>
    let f : CartDoc α → CartDoc α :=
      fun c => { c with products := removeLineKey c.products pid }
    .ok { s with carts := updateFirstWhere (isPendingOf u) f s.carts }

/-- Overwrite step of update_product_quantity_in_cart: set the quantity of
the line at the key, leaving its price snapshot and all other lines alone. -/
def setLineQuantity (prods : List (String × CartLine α)) (pid : String)
    (q : α) : List (String × CartLine α) :=
  mapLine prods pid (fun l => { l with quantity := q })

/-- update_product_quantity_in_cart: validate, require a pending cart and an
existing line, re-resolve the product, re-check active and stock against the
new absolute quantity, then overwrite the line's quantity (price untouched). -/
def updateProductQuantityInCart (s : StoreState α) (u pid : String) (q : α) :
    Except HttpsErr (StoreState α) :=
  match validateEmptyStringField pid with
  | .error e => .error e
  | .ok _ =>
  match validatePositiveNumberField q with
  | .error e => .error e
  | .ok _ =>
  match firstPending s u with
  | none => .error .notFound
  | some c =>
  match lookupLine c.products pid with
  | none => .error .notFound
  | some _ =>
  match getProductDataById s pid with
  | .error e => .error e
  | .ok prod =>
  match checkProductActive prod with
  | .error e => .error e
  | .ok _ =>
  match checkProductStock prod q with
  | .error e => .error e
  | .ok _ =>
    let f : CartDoc α → CartDoc α :=
      fun c => { c with products := setLineQuantity c.products pid q }
    .ok { s with carts := updateFirstWhere (isPendingOf u) f s.carts }

/-- get_cart: return docs[0] of the pending-cart query, not-found if empty. -/
def getCart (s : StoreState α) (u : String) : Except HttpsErr (CartDoc α) :=
  match firstPending s u with
  | none => .error .notFound
  | some c => .ok c

/-- clear_cart: require a pending cart, then replace its products map with
the empty map; the status stays pending. -/
def clearCart (s : StoreState α) (u : String) : Except HttpsErr (StoreState α) :=
  match firstPending s u with
  | none => .error .notFound
  | some _ =>
    let f : CartDoc α → CartDoc α := fun c => { c with products := [] }
    .ok { s with carts := updateFirstWhere (isPendingOf u) f s.carts }

/-- checkout_cart: require a pending cart, then flip its status to
completed. -/
def checkoutCart (s : StoreState α) (u : String) :
    Except HttpsErr (StoreState α) :=
  match firstPending s u with
  | none => .error .notFound
  | some _ =>
    let f : CartDoc α → CartDoc α := fun c => { c with status := "completed" }
    .ok { s with carts := updateFirstWhere (isPendingOf u) f s.carts }

/-- The optional fields of an update_product request body; an absent field
is left out of the updates object and keeps its stored value. -/
structure ProductUpdates (α : Type) where
  title : Option String
  description : Option String
  price : Option α
  stock : Option α
  active : Option Bool
  brand : Option String
  tags : Option (List String)
  image_url : Option String
  deriving DecidableEq

/-- Merge of the updates object into a stored product document
(Firestore update semantics: present fields overwrite, absent fields stay). -/
def applyProductUpdates (p : ProductData α) (upd : ProductUpdates α) :
    ProductData α where
  title := upd.title.getD p.title
  description := upd.description.getD p.description
  price := upd.price.getD p.price
  stock := upd.stock.getD p.stock
  active := upd.active.getD p.active
  brand := upd.brand.getD p.brand
  tags := upd.tags.getD p.tags
  owner := p.owner
  image_url := upd.image_url.getD p.image_url

/-- In-place update of the catalog entry at a key. -/
def mapProductEntry : List (String × ProductData α) → String →
    (ProductData α → ProductData α) → List (String × ProductData α)
  | [], _, _ => []
  | (k, v) :: rest, pid, f =>
      if k = pid then (k, f v) :: rest else (k, v) :: mapProductEntry rest pid f

/-- Deletion of a catalog entry (productRef.delete). -/
def removeProductEntry (prods : List (String × ProductData α)) (pid : String) :
    List (String × ProductData α) :=
  prods.filter (fun kv => decide (kv.1 ≠ pid))

/-- get_product_by_id: resolve the product; when the caller is not the owner
the active check runs (unavailable on an inactive product); the owner gets
the data back unconditionally. -/
def getProductById (s : StoreState α) (u pid : String) :
    Except HttpsErr (ProductData α) :=
  match validateEmptyStringField pid with
  | .error e => .error e
  | .ok _ =>
  match getProductDataById s pid with
  | .error e => .error e
  | .ok prod =>
    if prod.owner ≠ u then
      match checkProductActive prod with
      | .error e => .error e
      | .ok _ => .ok prod
    else .ok prod

/-- update_product: resolve the product, reject a caller who is not its
owner with permission-denied, otherwise merge the updates object. -/
def updateProduct (s : StoreState α) (u pid : String) (upd : ProductUpdates α) :
    Except HttpsErr (StoreState α) :=
  match validateEmptyStringField pid with
  | .error e => .error e
  | .ok _ =>
  match getProductDataById s pid with
  | .error e => .error e
  | .ok prod =>
    if prod.owner ≠ u then .error .permissionDenied
    else
      let g : ProductData α → ProductData α := fun p => applyProductUpdates p upd
      .ok { s with products := mapProductEntry s.products pid g }

/-- remove_product: resolve the product, reject a non-owner caller with
permission-denied, otherwise delete the catalog document. -/
def removeProduct (s : StoreState α) (u pid : String) :
    Except HttpsErr (StoreState α) :=
  match validateEmptyStringField pid with
  | .error e => .error e
  | .ok _ =>
  match getProductDataById s pid with
  | .error e => .error e
  | .ok prod =>
    if prod.owner ≠ u then .error .permissionDenied
    else .ok { s with products := removeProductEntry s.products pid }

/-- One CartService operation for a fixed owner. -/
inductive CartOp (α : Type) where
  | addLine (pid : String) (q : α)
  | updateLine (pid : String) (q : α)
  | removeLine (pid : String)
  | clear
  | checkout
  | view
  deriving DecidableEq

/-- Dispatch one operation for an owner, as the functions implement it. -/
def runCartOp (s : StoreState α) (u : String) :
    CartOp α → Except HttpsErr (StoreState α)
  | .addLine pid q => addProductToCart s u pid q
  | .updateLine pid q => updateProductQuantityInCart s u pid q
  | .removeLine pid => removeProductFromCart s u pid
  | .clear => clearCart s u
  | .checkout => checkoutCart s u
  | .view =>
    match getCart s u with
    | .error e => .error e
    | .ok _ => .ok s

/-- The state after one operation: a thrown HttpsError leaves the store
untouched (every throw happens before any write). -/
def execCartOp (s : StoreState α) (u : String) (op : CartOp α) : StoreState α :=
  match runCartOp s u op with
  | .ok sNew => sNew
  | .error _ => s

/-- The state after a sequence of operations for one owner. -/
def execCartOps (s : StoreState α) (u : String) : List (CartOp α) → StoreState α
  | [] => s
  | op :: ops => execCartOps (execCartOp s u op) u ops

/-- The line an owner's first pending cart holds for a product, if any:
the observation the claims quantify over. -/
def pendingLine (s : StoreState α) (u pid : String) : Option (CartLine α) :=
  match firstPending s u with
  | none => none
  | some c => lookupLine c.products pid

/-- The live stock of a catalog product, if the product exists. -/
def stockOf (s : StoreState α) (pid : String) : Option α :=
  (findProduct s pid).map (fun p => p.stock)

/-- An owner with no cart document at all, pending or otherwise. -/
def noCartFor (s : StoreState α) (u : String) : Prop :=
  s.carts.filter (fun c => decide (c.owner = u)) = []

instance (s : StoreState α) (u : String) : Decidable (noCartFor s u) := by
  unfold noCartFor
  infer_instance

/-- Number of completed carts an owner has. -/
def completedCount (s : StoreState α) (u : String) : Nat :=
  (s.carts.filter (fun c => decide (c.owner = u ∧ c.status = "completed"))).length

/-- Index in store order of the first pending cart of an owner: the document
reference captured by the read half of add_product_to_cart.  Carts are never
deleted and new carts are appended, so an index, once read, keeps denoting
the same document. -/
def firstPendingIdx (u : String) : List (CartDoc α) → Option Nat
  | [] => none
  | c :: cs =>
      if isPendingOf u c then some 0 else (firstPendingIdx u cs).map Nat.succ

/-- Replace the document at an index, leaving every other document alone. -/
def modifyAt : List (CartDoc α) → Nat → (CartDoc α → CartDoc α) →
    List (CartDoc α)
  | [], _, _ => []
  | c :: cs, 0, f => f c :: cs
  | c :: cs, Nat.succ n, f => c :: modifyAt cs n f

/-- The read half of add_product_to_cart: the snapshot of the pending-cart
query (document reference and document data), or none when the query is
empty.  The snapshot is taken once and is not re-read before the write. -/
def addCartReadPhase (s : StoreState α) (u : String) :
    Option (Nat × CartDoc α) :=
  match firstPendingIdx u s.carts with
  | none => none
  | some i => (s.carts.get? i).map (fun c => (i, c))

/-- The write half of add_product_to_cart: with an empty snapshot, append a
fresh pending cart; otherwise overwrite the products field of the referenced
document with the merge computed from the snapshot data.  The write is
unconditioned: it does not compare the document against the snapshot. -/
def addCartWritePhase (s : StoreState α) (u pid : String) (price q : α)
    (snap : Option (Nat × CartDoc α)) : StoreState α :=
  match snap with
  | none =>
      let newCart : CartDoc α := ⟨u, "pending", [(pid, ⟨pid, price, q⟩)]⟩
      { s with carts := s.carts ++ [newCart] }
  | some (i, cSnap) =>
      let f : CartDoc α → CartDoc α :=
        fun cur => { cur with products := mergeAddLine cSnap.products pid price q }
      { s with carts := modifyAt s.carts i f }

/-! Concrete fixtures used by witnesses and counterexamples.  The catalog
holds product p (active, price 10, stock 5, owned by SELLER) and product q
(inactive, owned by SELLER). -/

/-- An active product: price 10, stock 5, owned by SELLER. -/
def prodP : ProductData Int :=
  ⟨"ProdP", "a product", 10, 5, true, "brand", [], "SELLER", "img"⟩

/-- An inactive product, owned by SELLER. -/
def prodQ : ProductData Int :=
  ⟨"ProdQ", "hidden product", 7, 3, false, "brand", [], "SELLER", "img"⟩

/-- Catalog fixture. -/
def catalogInt : List (String × ProductData Int) :=
  [("p", prodP), ("q", prodQ)]

/-- State with no carts at all. -/
def sNoCart : StoreState Int := ⟨[], catalogInt⟩

/-- State where U already has an empty pending cart. -/
def sOneCart : StoreState Int := ⟨[⟨"U", "pending", []⟩], catalogInt⟩

/-- State where A has a pending cart holding one line for p. -/
def sCartA : StoreState Int :=
  ⟨[⟨"A", "pending", [("p", ⟨"p", 10, 1⟩)]⟩], catalogInt⟩

/-- An update_product request body with every optional field absent. -/
def noUpdates : ProductUpdates Int :=
  ⟨none, none, none, none, none, none, none, none⟩

/-- The rational five halves, a positive non-integer number. -/
def qFiveHalves : Rat := ⟨5, 2, by decide, by norm_num⟩

/-- Ten as a rational built without normalization. -/
def ratTen : Rat := ⟨10, 1, one_ne_zero, Nat.coprime_one_right _⟩

/-- Five as a rational built without normalization. -/
def ratFive : Rat := ⟨5, 1, one_ne_zero, Nat.coprime_one_right _⟩

/-- The active product p over rational numbers. -/
def prodPRat : ProductData Rat :=
  ⟨"ProdP", "a product", ratTen, ratFive, true, "brand", [], "SELLER", "img"⟩

/-- State with no carts, over rational numbers. -/
def sNoCartRat : StoreState Rat := ⟨[], [("p", prodPRat)]⟩

/-- Replace the carts collection of a state, keeping the catalog. -/
def withCarts (s : StoreState α) (l : List (CartDoc α)) : StoreState α :=
  { s with carts := l }

/-- The read-read-write-write interleaving of two concurrent
AddLine(U, p, 1) calls: both take their pending-cart snapshot of the same
initial state, then both commit their unconditioned writes. -/
def rrwwSchedule (s : StoreState Int) : StoreState Int :=
  let snap1 := addCartReadPhase s "U"
  let snap2 := addCartReadPhase s "U"
  let s1 := addCartWritePhase s "U" "p" 10 1 snap1
  addCartWritePhase s1 "U" "p" 10 1 snap2

/-! Association-list lemmas about the products map of one cart. -/

theorem lookupLine_mapLine_self (prods : List (String × CartLine α))
    (pid : String) (f : CartLine α → CartLine α) :
    lookupLine (mapLine prods pid f) pid = (lookupLine prods pid).map f := by
  induction prods with
  | nil => rfl
  | cons kv rest ih =>
      obtain ⟨k, v⟩ := kv
      by_cases hk : k = pid
      · simp [mapLine, lookupLine, hk]
      · simp [mapLine, lookupLine, hk, ih]

theorem lookupLine_mapLine_ne (prods : List (String × CartLine α))
    (pid p' : String) (f : CartLine α → CartLine α) (hne : p' ≠ pid) :
    lookupLine (mapLine prods pid f) p' = lookupLine prods p' := by
  induction prods with
  | nil => rfl
  | cons kv rest ih =>
      obtain ⟨k, v⟩ := kv
      by_cases hk : k = pid
      · subst hk
        simp [mapLine, lookupLine, Ne.symm hne]
      · by_cases hk' : k = p'
        · subst hk'
          simp [mapLine, lookupLine, hk]
        · simp [mapLine, lookupLine, hk, hk', ih]

theorem lookupLine_append_self (prods : List (String × CartLine α))
    (pid : String) (l : CartLine α) (h : lookupLine prods pid = none) :
    lookupLine (prods ++ [(pid, l)]) pid = some l := by
  induction prods with
  | nil => simp [lookupLine]
  | cons kv rest ih =>
      obtain ⟨k, v⟩ := kv
      by_cases hk : k = pid
      · simp [lookupLine, hk] at h
      · simp only [lookupLine, hk] at h
        simpa [lookupLine, hk] using ih h

theorem lookupLine_append_ne (prods : List (String × CartLine α))
    (pid p' : String) (l : CartLine α) (hne : p' ≠ pid) :
    lookupLine (prods ++ [(pid, l)]) p' = lookupLine prods p' := by
  induction prods with
  | nil => simp [lookupLine, Ne.symm hne]
  | cons kv rest ih =>
      obtain ⟨k, v⟩ := kv
      by_cases hk : k = p'
      · simp [lookupLine, hk]
      · simp [lookupLine, hk, ih]

theorem lookupLine_removeLineKey_self (prods : List (String × CartLine α))
    (pid : String) :
    lookupLine (removeLineKey prods pid) pid = none := by
  induction prods with
  | nil => rfl
  | cons kv rest ih =>
      obtain ⟨k, v⟩ := kv
      by_cases hk : k = pid
      · simpa [removeLineKey, hk] using ih
      · simpa [removeLineKey, lookupLine, hk] using ih

theorem lookupLine_removeLineKey_ne (prods : List (String × CartLine α))
    (pid p' : String) (hne : p' ≠ pid) :
    lookupLine (removeLineKey prods pid) p' = lookupLine prods p' := by
  induction prods with
  | nil => rfl
  | cons kv rest ih =>
      obtain ⟨k, v⟩ := kv
      by_cases hk : k = pid
      · subst hk
        simp only [removeLineKey, List.filter_cons] at ih ⊢
        simp only [lookupLine, Ne.symm hne, if_false]
        simpa [ih] using ih
      · by_cases hk' : k = p'
        · subst hk'
          simp [removeLineKey, List.filter_cons, hk, lookupLine]
        · simp only [removeLineKey, List.filter_cons] at ih ⊢
          simp only [lookupLine, hk, hk', if_false, decide_not]
          simpa using ih

/-! Lemmas about updateFirstWhere and the pending-cart query. -/

theorem updateFirstWhere_of_filter_nil (p : CartDoc α → Bool)
    (f : CartDoc α → CartDoc α) (l : List (CartDoc α))
    (h : l.filter p = []) : updateFirstWhere p f l = l := by
  induction l with
  | nil => rfl
  | cons c cs ih =>
      by_cases hc : p c
      · simp [List.filter_cons, hc] at h
      · simp only [List.filter_cons, hc] at h
        simp [updateFirstWhere, hc, ih h]

theorem filter_updateFirstWhere_head (p : CartDoc α → Bool)
    (f : CartDoc α → CartDoc α) (l : List (CartDoc α)) (c : CartDoc α)
    (r : List (CartDoc α)) (hl : l.filter p = c :: r) (hf : p (f c) = true) :
    (updateFirstWhere p f l).filter p = f c :: r := by
  induction l generalizing c r with
  | nil => simp at hl
  | cons d ds ih =>
      by_cases hd : p d
      · rw [List.filter_cons_of_pos hd] at hl
        obtain ⟨rfl, rfl⟩ := List.cons_eq_cons.mp hl
        simp [updateFirstWhere, hd, List.filter_cons, hf]
      · rw [List.filter_cons_of_neg hd] at hl
        simp [updateFirstWhere, hd, List.filter_cons, ih c r hl hf]

theorem length_filter_updateFirstWhere_preserve (p : CartDoc α → Bool)
    (f : CartDoc α → CartDoc α) (l : List (CartDoc α))
    (hf : ∀ c, p c = true → p (f c) = true) :
    ((updateFirstWhere p f l).filter p).length = (l.filter p).length := by
  induction l with
  | nil => rfl
  | cons c cs ih =>
      by_cases hc : p c
      · simp [updateFirstWhere, hc, List.filter_cons, hf c hc]
      · simp [updateFirstWhere, hc, List.filter_cons, ih]

theorem length_filter_updateFirstWhere_kill (p : CartDoc α → Bool)
    (f : CartDoc α → CartDoc α) (l : List (CartDoc α))
    (hf : ∀ c, p (f c) = false) :
    ((updateFirstWhere p f l).filter p).length = (l.filter p).length - 1 := by
  induction l with
  | nil => rfl
  | cons c cs ih =>
      by_cases hc : p c
      · simp [updateFirstWhere, hc, List.filter_cons, hf c]
      · simp [updateFirstWhere, hc, List.filter_cons, ih]

theorem length_filter_updateFirstWhere_other (p q : CartDoc α → Bool)
    (f : CartDoc α → CartDoc α) (l : List (CartDoc α))
    (hl : l.filter p ≠ []) (hq1 : ∀ c, p c = true → q (f c) = true)
    (hq2 : ∀ c, p c = true → q c = false) :
    ((updateFirstWhere p f l).filter q).length = (l.filter q).length + 1 := by
  induction l with
  | nil => simp at hl
  | cons c cs ih =>
      by_cases hc : p c
      · simp [updateFirstWhere, hc, List.filter_cons, hq1 c hc, hq2 c hc]
      · have hl' : cs.filter p ≠ [] := by
          simpa [List.filter_cons, hc] using hl
        by_cases hqc : q c
        · simp [updateFirstWhere, hc, List.filter_cons, hqc, ih hl']
        · simp [updateFirstWhere, hc, List.filter_cons, hqc, ih hl']

/-! Error shapes of the validators and checks. -/

theorem validateEmptyStringField_error (v : String) (e : HttpsErr)
    (h : validateEmptyStringField v = .error e) : e = .invalidArgument := by
  unfold validateEmptyStringField at h
  split at h <;> simp_all

theorem validatePositiveNumberField_error (v : α) (e : HttpsErr)
    (h : validatePositiveNumberField v = .error e) : e = .invalidArgument := by
  unfold validatePositiveNumberField at h
  split at h <;> simp_all

theorem getProductDataById_error (s : StoreState α) (pid : String)
    (e : HttpsErr) (h : getProductDataById s pid = .error e) :
    e = .notFound := by
  unfold getProductDataById at h
  split at h <;> simp_all

theorem checkProductActive_error (p : ProductData α) (e : HttpsErr)
    (h : checkProductActive p = .error e) : e = .unavailable := by
  unfold checkProductActive at h
  split at h <;> simp_all

theorem checkProductStock_error (p : ProductData α) (q : α) (e : HttpsErr)
    (h : checkProductStock p q = .error e) : e = .unavailable := by
  unfold checkProductStock at h
  split at h
  · simp_all
  · split at h <;> simp_all

theorem validatePositiveNumberField_ok (v : α) (h : ¬v ≤ 0) :
    validatePositiveNumberField v = .ok () := by
  unfold validatePositiveNumberField
  have hv : ¬v = 0 := fun hz => h (le_of_eq hz)
  simp [hv, h]

/-- isPendingOf only looks at owner and status, so a products update
leaves it alone. -/
theorem isPendingOf_set_products (u : String) (c : CartDoc α)
    (x : List (String × CartLine α)) :
    isPendingOf u { c with products := x } = isPendingOf u c := rfl

/-- An owner with no cart at all has no pending cart. -/
theorem filter_pending_nil_of_filter_owner_nil (u : String)
    (l : List (CartDoc α))
    (h : l.filter (fun c => decide (c.owner = u)) = []) :
    l.filter (isPendingOf u) = [] := by
  induction l with
  | nil => rfl
  | cons c cs ih =>
      by_cases hc : c.owner = u
      · simp [List.filter_cons, hc] at h
      · rw [List.filter_cons_of_neg (by simpa using hc)] at h
        have hp : isPendingOf u c = false := by
          simp [isPendingOf, hc]
        rw [List.filter_cons_of_neg (by simp [hp]), ih h]

theorem pendingCarts_eq_nil_of_noCartFor (s : StoreState α) (u : String)
    (h : noCartFor s u) : pendingCarts s u = [] :=
  filter_pending_nil_of_filter_owner_nil u s.carts h

/-! Success shapes of each cart operation: what the written state looks
like in terms of the pre-state. -/

theorem addProductToCart_ok_shape (s : StoreState α) (u pid : String) (q : α)
    (s' : StoreState α) (h : addProductToCart s u pid q = .ok s') :
    s'.products = s.products ∧
    ((∃ nc : CartDoc α, nc.owner = u ∧ nc.status = "pending" ∧
        pendingCarts s u = [] ∧ s'.carts = s.carts ++ [nc]) ∨
     (∃ f : CartDoc α → CartDoc α,
        s'.carts = updateFirstWhere (isPendingOf u) f s.carts ∧
        ∀ c, isPendingOf u (f c) = isPendingOf u c)) := by
  unfold addProductToCart at h
  repeat' split at h
  any_goals exact Except.noConfusion h
  all_goals injection h with h
  all_goals subst h
  · exact ⟨rfl, .inl ⟨_, rfl, rfl,
      List.isEmpty_iff.mp ‹(pendingCarts s u).isEmpty = true›, rfl⟩⟩
  · exact ⟨rfl, .inr ⟨_, rfl, fun c => rfl⟩⟩

theorem removeProductFromCart_ok_shape (s : StoreState α) (u pid : String)
    (s' : StoreState α) (h : removeProductFromCart s u pid = .ok s') :
    s'.products = s.products ∧
    ∃ f : CartDoc α → CartDoc α,
      s'.carts = updateFirstWhere (isPendingOf u) f s.carts ∧
      ∀ c, isPendingOf u (f c) = isPendingOf u c := by
  unfold removeProductFromCart at h
  repeat' split at h
  any_goals exact Except.noConfusion h
  injection h with h
  subst h
  exact ⟨rfl, _, rfl, fun c => rfl⟩

theorem updateProductQuantityInCart_ok_shape (s : StoreState α)
    (u pid : String) (q : α) (s' : StoreState α)
    (h : updateProductQuantityInCart s u pid q = .ok s') :
    s'.products = s.products ∧
    ∃ f : CartDoc α → CartDoc α,
      s'.carts = updateFirstWhere (isPendingOf u) f s.carts ∧
      ∀ c, isPendingOf u (f c) = isPendingOf u c := by
  unfold updateProductQuantityInCart at h
  repeat' split at h
  any_goals exact Except.noConfusion h
  injection h with h
  subst h
  exact ⟨rfl, _, rfl, fun c => rfl⟩

theorem clearCart_ok_shape (s : StoreState α) (u : String)
    (s' : StoreState α) (h : clearCart s u = .ok s') :
    s'.products = s.products ∧
    ∃ f : CartDoc α → CartDoc α,
      s'.carts = updateFirstWhere (isPendingOf u) f s.carts ∧
      ∀ c, isPendingOf u (f c) = isPendingOf u c := by
  unfold clearCart at h
  repeat' split at h
  any_goals exact Except.noConfusion h
  injection h with h
  subst h
  exact ⟨rfl, _, rfl, fun c => rfl⟩

theorem checkoutCart_ok_shape (s : StoreState α) (u : String)
    (s' : StoreState α) (h : checkoutCart s u = .ok s') :
    s'.products = s.products ∧ firstPending s u ≠ none ∧
    s'.carts = updateFirstWhere (isPendingOf u)
      (fun c => { c with status := "completed" }) s.carts := by
  unfold checkoutCart at h
  split at h
  · exact Except.noConfusion h
  · injection h with h
    subst h
    rename_i hp
    exact ⟨rfl, by simp [hp], rfl⟩

theorem checkoutCart_error_shape (s : StoreState α) (u : String)
    (e : HttpsErr) (h : checkoutCart s u = .error e) :
    e = .notFound ∧ firstPending s u = none := by
  unfold checkoutCart at h
  split at h
  · rename_i hp
    refine ⟨by simp_all, hp⟩
  · exact Except.noConfusion h

theorem runCartOp_view_ok (s s' : StoreState α) (u : String)
    (h : runCartOp s u .view = .ok s') : s' = s := by
  simp only [runCartOp] at h
  split at h
  · exact Except.noConfusion h
  · injection h with h
    exact h.symm

theorem execCartOp_eq_of_ok (s s' : StoreState α) (u : String)
    (op : CartOp α) (h : runCartOp s u op = .ok s') :
    execCartOp s u op = s' := by
  unfold execCartOp
  rw [h]

theorem execCartOp_eq_of_error (s : StoreState α) (u : String)
    (op : CartOp α) (e : HttpsErr) (h : runCartOp s u op = .error e) :
    execCartOp s u op = s := by
  unfold execCartOp
  rw [h]

/-- A products-only rewrite of the first pending cart does not change how
many pending carts the owner has. -/
theorem pendingCount_of_carts_updateFirstWhere (s s' : StoreState α)
    (u : String) (f : CartDoc α → CartDoc α)
    (hc : s'.carts = updateFirstWhere (isPendingOf u) f s.carts)
    (hf : ∀ c, isPendingOf u (f c) = isPendingOf u c) :
    pendingCount s' u = pendingCount s u := by
  unfold pendingCount pendingCarts
  rw [hc]
  exact length_filter_updateFirstWhere_preserve _ f s.carts
    (fun c hcp => by rw [hf c]; exact hcp)

/-- Every operation preserves the single-pending-cart bound. -/
theorem pendingCount_execCartOp_le (s : StoreState α) (u : String)
    (op : CartOp α) (h : pendingCount s u ≤ 1) :
    pendingCount (execCartOp s u op) u ≤ 1 := by
  cases hrun : runCartOp s u op with
  | error e => rw [execCartOp_eq_of_error s u op e hrun]; exact h
  | ok s' =>
    rw [execCartOp_eq_of_ok s s' u op hrun]
    cases op with
    | addLine pid q =>
        obtain ⟨-, hshape⟩ := addProductToCart_ok_shape s u pid q s' hrun
        rcases hshape with ⟨nc, ho, hst, hnil, hc⟩ | ⟨f, hc, hf⟩
        · have hone : pendingCount s' u = 1 := by
            unfold pendingCount pendingCarts
            rw [hc, List.filter_append]
            have hnil' : s.carts.filter (isPendingOf u) = [] := hnil
            rw [hnil']
            simp [List.filter, isPendingOf, ho, hst]
          omega
        · rw [pendingCount_of_carts_updateFirstWhere s s' u f hc hf]
          exact h
    | updateLine pid q =>
        obtain ⟨-, f, hc, hf⟩ :=
          updateProductQuantityInCart_ok_shape s u pid q s' hrun
        rw [pendingCount_of_carts_updateFirstWhere s s' u f hc hf]
        exact h
    | removeLine pid =>
        obtain ⟨-, f, hc, hf⟩ := removeProductFromCart_ok_shape s u pid s' hrun
        rw [pendingCount_of_carts_updateFirstWhere s s' u f hc hf]
        exact h
    | clear =>
        obtain ⟨-, f, hc, hf⟩ := clearCart_ok_shape s u s' hrun
        rw [pendingCount_of_carts_updateFirstWhere s s' u f hc hf]
        exact h
    | checkout =>
        obtain ⟨-, -, hc⟩ := checkoutCart_ok_shape s u s' hrun
        have hkill : pendingCount s' u = pendingCount s u - 1 := by
          unfold pendingCount pendingCarts
          rw [hc]
          exact length_filter_updateFirstWhere_kill _ _ s.carts
            (fun c => by simp [isPendingOf])
        omega
    | view =>
        rw [runCartOp_view_ok s s' u hrun]
        exact h

/-- The single-pending-cart bound holds along every operation sequence
started with no cart for the owner. -/
theorem pendingCount_le_one_of_ops (s0 : StoreState α) (u : String)
    (h0 : noCartFor s0 u) (ops : List (CartOp α)) :
    pendingCount (execCartOps s0 u ops) u ≤ 1 := by
  have h1 : pendingCount s0 u ≤ 1 := by
    unfold pendingCount
    rw [pendingCarts_eq_nil_of_noCartFor s0 u h0]
    simp
  clear h0
  induction ops generalizing s0 with
  | nil => exact h1
  | cons op ops ih =>
      exact ih (execCartOp s0 u op) (pendingCount_execCartOp_le s0 u op h1)

/-- A nonempty pending query: its head is the first pending cart. -/
theorem firstPending_eq_cons (s : StoreState α) (u : String) (c : CartDoc α)
    (hfp : firstPending s u = some c) :
    ∃ r, pendingCarts s u = c :: r := by
  unfold firstPending at hfp
  cases hpc : pendingCarts s u with
  | nil => rw [hpc] at hfp; simp at hfp
  | cons a l =>
      rw [hpc] at hfp
      simp at hfp
      exact ⟨l, by rw [hfp]⟩

/-! Claim theorems. -/

/-- Claim C1: the spec asserts that concurrent AddLine calls for the same
owner and product are serialized with no lost update, the final quantity
being the sum of the deltas with exactly one line.  The code performs an
unguarded read-merge-write, so the read-read-write-write interleaving of two
AddLine(U, p, 1) calls loses one update: starting from a pending cart with
no line for p the final quantity is 1, not 2 (while the sequential run does
give 2), and starting with no cart at all the same interleaving creates two
pending carts.  This theorem evaluates the code at that failing input. -/
theorem addLine_race_lost_update :
    pendingLine (rrwwSchedule sOneCart) "U" "p" = some ⟨"p", 10, 1⟩ ∧
    pendingCount (rrwwSchedule sOneCart) "U" = 1 ∧
    pendingLine (execCartOps sOneCart "U"
      [.addLine "p" 1, .addLine "p" 1]) "U" "p" = some ⟨"p", 10, 2⟩ ∧
    pendingCount (rrwwSchedule sNoCart) "U" = 2 := by
  decide

/-- Claim C2: for every sequence of cart operations executed for one owner
starting from a state with no cart for that owner, at every observation
point at most one cart with status pending exists for that owner. -/
theorem single_pending_cart_invariant (s0 : StoreState α) (u : String)
    (h0 : noCartFor s0 u) (ops : List (CartOp α)) :
    pendingCount (execCartOps s0 u ops) u ≤ 1 :=
  pendingCount_le_one_of_ops s0 u h0 ops

/-- Witness for C2: a concrete run through add, add, checkout, add, clear,
checkout keeps the pending-cart count at most one. -/
theorem single_pending_cart_invariant_witness :
    noCartFor sNoCart "U" ∧
    pendingCount (execCartOps sNoCart "U"
      [.addLine "p" 2, .addLine "p" 1, .checkout, .addLine "p" 3, .clear,
       .checkout]) "U" ≤ 1 :=
  ⟨by decide, single_pending_cart_invariant sNoCart "U" (by decide) _⟩

/-- Claim C4: the stock check fails with Unavailable exactly when stock is
nonpositive, or the requested quantity is positive and stock is below it;
requesting exactly the stock succeeds.  Concretely with stock 5: adding 5
succeeds, adding 6 fails Unavailable, and a second add of 1 after the add
of 5 is evaluated against stock 5 again (cart operations never decrement
stock) and succeeds, raising the line quantity to 6. -/
theorem stock_check_boundary :
    (∀ (β : Type) [LinearOrder β] [Zero β] [Add β]
        (p : ProductData β) (q : β),
        checkProductStock p q = .error .unavailable ↔
          p.stock ≤ 0 ∨ (0 < q ∧ p.stock < q)) ∧
    (addProductToCart sNoCart "U" "p" 5).isOk = true ∧
    addProductToCart sNoCart "U" "p" 6 = .error .unavailable ∧
    pendingLine (execCartOp sNoCart "U" (.addLine "p" 5)) "U" "p" =
      some ⟨"p", 10, 5⟩ ∧
    stockOf (execCartOp sNoCart "U" (.addLine "p" 5)) "p" = some 5 ∧
    (addProductToCart (execCartOp sNoCart "U" (.addLine "p" 5))
      "U" "p" 1).isOk = true ∧
    pendingLine (execCartOps sNoCart "U"
      [.addLine "p" 5, .addLine "p" 1]) "U" "p" = some ⟨"p", 10, 6⟩ ∧
    stockOf (execCartOps sNoCart "U"
      [.addLine "p" 5, .addLine "p" 1]) "p" = some 5 := by
  refine ⟨?_, by decide, by decide, by decide, by decide, by decide,
    by decide, by decide⟩
  intro β _ _ _ p q
  unfold checkProductStock
  rcases le_or_lt p.stock 0 with h1 | h1
  · simp [h1]
  · rw [if_neg (not_le.mpr h1)]
    by_cases h2 : q ≠ 0 ∧ p.stock < q
    · rw [if_pos h2]
      exact iff_of_true rfl (Or.inr ⟨h1.trans h2.2, h2.2⟩)
    · rw [if_neg h2]
      apply iff_of_false (by simp)
      rintro (hc | ⟨hq, hlt⟩)
      · exact absurd hc (not_le.mpr h1)
      · exact h2 ⟨ne_of_gt hq, hlt⟩

/-- Counterexample to claim C7: the claim says every qty that is not a
positive integer, including non-integer numbers, is rejected with
InvalidArgument; but the validator only rejects nonpositive values, so an
AddLine with qty five halves (a non-integer) succeeds. -/
theorem qty_non_integer_accepted :
    qFiveHalves.den ≠ 1 ∧ (∀ n : ℤ, (n : ℚ) ≠ qFiveHalves) ∧
    (0 : ℚ) < qFiveHalves ∧
    validatePositiveNumberField qFiveHalves = .ok () ∧
    (addProductToCart sNoCartRat "U" "p" qFiveHalves).isOk = true := by
  refine ⟨by decide, ?_, by decide, by decide, by decide⟩
  intro n h
  have hden := congrArg Rat.den h
  rw [Rat.den_intCast] at hden
  exact absurd hden.symm (by decide)

/-- Claim C7 as amended: an AddLine or UpdateLineQuantity call whose qty is
zero or negative fails with InvalidArgument (and, the error being thrown
before any write, the store is unchanged); positive non-integer quantities
are accepted, since the validator checks positivity only. -/
theorem qty_nonpositive_rejected (s : StoreState α) (u pid : String) (q : α)
    (hq : q ≤ 0) :
    addProductToCart s u pid q = .error .invalidArgument ∧
    updateProductQuantityInCart s u pid q = .error .invalidArgument := by
  have hv : validatePositiveNumberField q = .error .invalidArgument := by
    unfold validatePositiveNumberField
    rw [if_pos (Or.inr hq)]
  constructor
  · unfold addProductToCart
    cases hpe : validateEmptyStringField pid with
    | error e => rw [validateEmptyStringField_error pid e hpe]
    | ok _ => rw [hv]
  · unfold updateProductQuantityInCart
    cases hpe : validateEmptyStringField pid with
    | error e => rw [validateEmptyStringField_error pid e hpe]
    | ok _ => rw [hv]

/-- Witness for the amended C7 at qty minus three. -/
theorem qty_nonpositive_rejected_witness :
    (-3 : Int) ≤ 0 ∧
    addProductToCart sNoCart "U" "p" (-3) = .error .invalidArgument ∧
    updateProductQuantityInCart sNoCart "U" "p" (-3) =
      .error .invalidArgument :=
  ⟨by decide, qty_nonpositive_rejected sNoCart "U" "p" (-3) (by decide)⟩

/-- Claim C5: on any reachable state (a sequence of operations from a state
with no cart for the owner) in which the owner has a pending cart, checkout
succeeds, turning the pending cart into a completed one, and an immediately
following second checkout fails with NotFound, since no pending cart
remains for that owner. -/
theorem checkout_idempotent_state (s0 : StoreState α) (u : String)
    (h0 : noCartFor s0 u) (ops : List (CartOp α))
    (hp : firstPending (execCartOps s0 u ops) u ≠ none) :
    ∃ s', checkoutCart (execCartOps s0 u ops) u = .ok s' ∧
      completedCount s' u = completedCount (execCartOps s0 u ops) u + 1 ∧
      pendingCount s' u = 0 ∧
      checkoutCart s' u = .error .notFound := by
  have hle : pendingCount (execCartOps s0 u ops) u ≤ 1 :=
    pendingCount_le_one_of_ops s0 u h0 ops
  set s := execCartOps s0 u ops with hs
  obtain ⟨c, hc⟩ : ∃ c, firstPending s u = some c := by
    cases hfp : firstPending s u with
    | none => exact absurd hfp hp
    | some c => exact ⟨c, rfl⟩
  have hnil : s.carts.filter (isPendingOf u) ≠ [] := by
    intro hnilEq
    unfold firstPending pendingCarts at hc
    rw [hnilEq] at hc
    simp at hc
  have hok : checkoutCart s u = .ok (withCarts s (updateFirstWhere
      (isPendingOf u) (fun d => { d with status := "completed" })
      s.carts)) := by
    unfold checkoutCart
    rw [hc]
    rfl
  have hkill := length_filter_updateFirstWhere_kill (isPendingOf u)
    (fun d => { d with status := "completed" }) s.carts
    (fun d => by simp [isPendingOf])
  have hle' : (s.carts.filter (isPendingOf u)).length ≤ 1 := hle
  have hge' : 1 ≤ (s.carts.filter (isPendingOf u)).length :=
    List.length_pos.mpr hnil
  have hzero : ((updateFirstWhere (isPendingOf u)
      (fun d => { d with status := "completed" }) s.carts).filter
      (isPendingOf u)).length = 0 := by omega
  refine ⟨_, hok, ?_, hzero, ?_⟩
  · show completedCount _ u = completedCount s u + 1
    unfold completedCount
    exact length_filter_updateFirstWhere_other (isPendingOf u) _ _ s.carts hnil
      (fun d hd => by
        simp only [isPendingOf, decide_eq_true_eq] at hd
        simp [hd.1])
      (fun d hd => by
        simp only [isPendingOf, decide_eq_true_eq] at hd
        simp [hd.2])
  · have hnone : firstPending (withCarts s (updateFirstWhere
        (isPendingOf u) (fun d => { d with status := "completed" })
        s.carts)) u = none := by
      unfold firstPending pendingCarts
      show ((updateFirstWhere (isPendingOf u)
        (fun d => { d with status := "completed" }) s.carts).filter
        (isPendingOf u)).head? = none
      rw [List.length_eq_zero.mp hzero]
      rfl
    unfold checkoutCart
    rw [hnone]

/-- Witness for C5: after one add for U, checkout completes the cart and a
second checkout reports NotFound. -/
theorem checkout_idempotent_state_witness :
    noCartFor sNoCart "U" ∧
    firstPending (execCartOps sNoCart "U" [.addLine "p" 2]) "U" ≠ none ∧
    ∃ s', checkoutCart (execCartOps sNoCart "U" [.addLine "p" 2]) "U" =
        .ok s' ∧
      completedCount s' "U" =
        completedCount (execCartOps sNoCart "U" [.addLine "p" 2]) "U" + 1 ∧
      pendingCount s' "U" = 0 ∧
      checkoutCart s' "U" = .error .notFound :=
  ⟨by decide, by decide,
    checkout_idempotent_state sNoCart "U" (by decide) [.addLine "p" 2]
      (by decide)⟩

/-- Claim C3: under the preconditions that the arguments validate, the
product exists, is active and the stock check passes, AddLine creates a
fresh pending cart with the single line (price snapshot, qty) when the
owner has no pending cart; increments the existing line by qty keeping its
price snapshot when the pending cart already holds the product; and inserts
a new line with the live product price when it does not — other lines are
untouched in either case. -/
theorem addLine_postconditions (s : StoreState α) (u pid : String) (q : α)
    (prod : ProductData α)
    (hval : validateEmptyStringField pid = .ok ())
    (hq : 0 < q)
    (hfind : findProduct s pid = some prod)
    (hact : prod.active = true)
    (hstock : checkProductStock prod q = .ok ()) :
    (pendingCarts s u = [] →
      addProductToCart s u pid q = .ok (withCarts s (s.carts ++
        [⟨u, "pending", [(pid, ⟨pid, prod.price, q⟩)]⟩]))) ∧
    (∀ c line, firstPending s u = some c →
      lookupLine c.products pid = some line →
      ∃ s' c', addProductToCart s u pid q = .ok s' ∧
        s'.products = s.products ∧
        firstPending s' u = some c' ∧
        c'.owner = c.owner ∧ c'.status = c.status ∧
        lookupLine c'.products pid =
          some ⟨line.id, line.price, line.quantity + q⟩ ∧
        ∀ p', p' ≠ pid →
          lookupLine c'.products p' = lookupLine c.products p') ∧
    (∀ c, firstPending s u = some c →
      lookupLine c.products pid = none →
      ∃ s' c', addProductToCart s u pid q = .ok s' ∧
        s'.products = s.products ∧
        firstPending s' u = some c' ∧
        c'.owner = c.owner ∧ c'.status = c.status ∧
        lookupLine c'.products pid = some ⟨pid, prod.price, q⟩ ∧
        ∀ p', p' ≠ pid →
          lookupLine c'.products p' = lookupLine c.products p') := by
  have hvq : validatePositiveNumberField q = .ok () :=
    validatePositiveNumberField_ok q (not_le.mpr hq)
  have hgp : getProductDataById s pid = .ok prod := by
    unfold getProductDataById
    rw [hfind]
  have hca : checkProductActive prod = .ok () := by
    unfold checkProductActive
    rw [if_neg (by simp [hact])]
  refine ⟨?_, ?_, ?_⟩
  · intro hnil
    unfold addProductToCart
    simp only [hval, hvq, hgp, hca, hstock]
    simp [hnil, withCarts]
  · intro c line hfp hline
    obtain ⟨r, hr⟩ := firstPending_eq_cons s u c hfp
    have hmem : isPendingOf u c = true := by
      have hcmem : c ∈ pendingCarts s u := by
        rw [hr]
        exact List.mem_cons_self c r
      exact List.of_mem_filter hcmem
    have hne : (pendingCarts s u).isEmpty = false := by
      rw [hr]
      rfl
    have hres : addProductToCart s u pid q = .ok (withCarts s
        (updateFirstWhere (isPendingOf u)
          (fun d => { d with
            products := mergeAddLine d.products pid prod.price q })
          s.carts)) := by
      unfold addProductToCart
      simp only [hval, hvq, hgp, hca, hstock]
      simp [hne, withCarts]
    have hfc : isPendingOf u ({ c with
        products := mergeAddLine c.products pid prod.price q }) = true :=
      (isPendingOf_set_products u c _).trans hmem
    have hfilter := filter_updateFirstWhere_head (isPendingOf u)
      (fun d => { d with
        products := mergeAddLine d.products pid prod.price q })
      s.carts c r hr hfc
    refine ⟨_, { c with products := mergeAddLine c.products pid prod.price q },
      hres, rfl, ?_, rfl, rfl, ?_, ?_⟩
    · unfold firstPending pendingCarts
      show ((updateFirstWhere (isPendingOf u)
        (fun d => { d with
          products := mergeAddLine d.products pid prod.price q })
        s.carts).filter (isPendingOf u)).head? = some _
      rw [hfilter]
      rfl
    · show lookupLine (mergeAddLine c.products pid prod.price q) pid =
        some ⟨line.id, line.price, line.quantity + q⟩
      unfold mergeAddLine
      rw [hline, lookupLine_mapLine_self, hline]
      rfl
    · intro p' hp'
      show lookupLine (mergeAddLine c.products pid prod.price q) p' =
        lookupLine c.products p'
      unfold mergeAddLine
      rw [hline]
      exact lookupLine_mapLine_ne c.products pid p' _ hp'
  · intro c hfp hline
    obtain ⟨r, hr⟩ := firstPending_eq_cons s u c hfp
    have hmem : isPendingOf u c = true := by
      have hcmem : c ∈ pendingCarts s u := by
        rw [hr]
        exact List.mem_cons_self c r
      exact List.of_mem_filter hcmem
    have hne : (pendingCarts s u).isEmpty = false := by
      rw [hr]
      rfl
    have hres : addProductToCart s u pid q = .ok (withCarts s
        (updateFirstWhere (isPendingOf u)
          (fun d => { d with
            products := mergeAddLine d.products pid prod.price q })
          s.carts)) := by
      unfold addProductToCart
      simp only [hval, hvq, hgp, hca, hstock]
      simp [hne, withCarts]
    have hfc : isPendingOf u ({ c with
        products := mergeAddLine c.products pid prod.price q }) = true :=
      (isPendingOf_set_products u c _).trans hmem
    have hfilter := filter_updateFirstWhere_head (isPendingOf u)
      (fun d => { d with
        products := mergeAddLine d.products pid prod.price q })
      s.carts c r hr hfc
    refine ⟨_, { c with products := mergeAddLine c.products pid prod.price q },
      hres, rfl, ?_, rfl, rfl, ?_, ?_⟩
    · unfold firstPending pendingCarts
      show ((updateFirstWhere (isPendingOf u)
        (fun d => { d with
          products := mergeAddLine d.products pid prod.price q })
        s.carts).filter (isPendingOf u)).head? = some _
      rw [hfilter]
      rfl
    · show lookupLine (mergeAddLine c.products pid prod.price q) pid =
        some ⟨pid, prod.price, q⟩
      unfold mergeAddLine
      rw [hline]
      exact lookupLine_append_self c.products pid _ hline
    · intro p' hp'
      show lookupLine (mergeAddLine c.products pid prod.price q) p' =
        lookupLine c.products p'
      unfold mergeAddLine
      rw [hline]
      exact lookupLine_append_ne c.products pid p' _ hp'

/-- Claim C6: UpdateLineQuantity fails with NotFound without a pending cart
or without a line for the product; otherwise it re-resolves the product,
re-checks active and stock against the new absolute quantity (not a delta),
sets the line's quantity to exactly qty (overwriting, not adding) and
leaves the price snapshot and all other lines untouched. -/
theorem updateLine_semantics (s : StoreState α) (u pid : String) (q : α)
    (hval : validateEmptyStringField pid = .ok ())
    (hq : 0 < q) :
    (firstPending s u = none →
      updateProductQuantityInCart s u pid q = .error .notFound) ∧
    (∀ c, firstPending s u = some c → lookupLine c.products pid = none →
      updateProductQuantityInCart s u pid q = .error .notFound) ∧
    (∀ c line prod, firstPending s u = some c →
      lookupLine c.products pid = some line →
      findProduct s pid = some prod → prod.active = true →
      0 < prod.stock → prod.stock < q →
      updateProductQuantityInCart s u pid q = .error .unavailable) ∧
    (∀ c line prod, firstPending s u = some c →
      lookupLine c.products pid = some line →
      findProduct s pid = some prod → prod.active = true →
      checkProductStock prod q = .ok () →
      ∃ s' c', updateProductQuantityInCart s u pid q = .ok s' ∧
        s'.products = s.products ∧
        firstPending s' u = some c' ∧
        c'.owner = c.owner ∧ c'.status = c.status ∧
        lookupLine c'.products pid = some ⟨line.id, line.price, q⟩ ∧
        ∀ p', p' ≠ pid →
          lookupLine c'.products p' = lookupLine c.products p') := by
  have hvq : validatePositiveNumberField q = .ok () :=
    validatePositiveNumberField_ok q (not_le.mpr hq)
  refine ⟨?_, ?_, ?_, ?_⟩
  · intro hfp
    unfold updateProductQuantityInCart
    simp [hval, hvq, hfp]
  · intro c hfp hline
    unfold updateProductQuantityInCart
    simp [hval, hvq, hfp, hline]
  · intro c line prod hfp hline hfind hact h0s hslt
    have hgp : getProductDataById s pid = .ok prod := by
      unfold getProductDataById
      rw [hfind]
    have hca : checkProductActive prod = .ok () := by
      unfold checkProductActive
      rw [if_neg (by simp [hact])]
    have hcs : checkProductStock prod q = .error .unavailable := by
      unfold checkProductStock
      rw [if_neg (not_le.mpr h0s), if_pos ⟨ne_of_gt hq, hslt⟩]
    unfold updateProductQuantityInCart
    simp [hval, hvq, hfp, hline, hgp, hca, hcs]
  · intro c line prod hfp hline hfind hact hstock
    obtain ⟨r, hr⟩ := firstPending_eq_cons s u c hfp
    have hmem : isPendingOf u c = true := by
      have hcmem : c ∈ pendingCarts s u := by
        rw [hr]
        exact List.mem_cons_self c r
      exact List.of_mem_filter hcmem
    have hgp : getProductDataById s pid = .ok prod := by
      unfold getProductDataById
      rw [hfind]
    have hca : checkProductActive prod = .ok () := by
      unfold checkProductActive
      rw [if_neg (by simp [hact])]
    have hres : updateProductQuantityInCart s u pid q = .ok (withCarts s
        (updateFirstWhere (isPendingOf u)
          (fun d => { d with products := setLineQuantity d.products pid q })
          s.carts)) := by
      unfold updateProductQuantityInCart
      simp only [hval, hvq, hfp, hline, hgp, hca, hstock]
      simp [withCarts]
    have hfc : isPendingOf u ({ c with
        products := setLineQuantity c.products pid q }) = true :=
      (isPendingOf_set_products u c _).trans hmem
    have hfilter := filter_updateFirstWhere_head (isPendingOf u)
      (fun d => { d with products := setLineQuantity d.products pid q })
      s.carts c r hr hfc
    refine ⟨_, { c with products := setLineQuantity c.products pid q },
      hres, rfl, ?_, rfl, rfl, ?_, ?_⟩
    · unfold firstPending pendingCarts
      show ((updateFirstWhere (isPendingOf u)
        (fun d => { d with products := setLineQuantity d.products pid q })
        s.carts).filter (isPendingOf u)).head? = some _
      rw [hfilter]
      rfl
    · show lookupLine (setLineQuantity c.products pid q) pid =
        some ⟨line.id, line.price, q⟩
      unfold setLineQuantity
      rw [lookupLine_mapLine_self, hline]
      rfl
    · intro p' hp'
      show lookupLine (setLineQuantity c.products pid q) p' =
        lookupLine c.products p'
      unfold setLineQuantity
      exact lookupLine_mapLine_ne c.products pid p' _ hp'

/-- Every error updateProductQuantityInCart can throw. -/
theorem updateProductQuantityInCart_error_classify (s : StoreState α)
    (u pid : String) (q : α) (e : HttpsErr)
    (h : updateProductQuantityInCart s u pid q = .error e) :
    e = .invalidArgument ∨ e = .notFound ∨ e = .unavailable := by
  unfold updateProductQuantityInCart at h
  repeat' split at h
  all_goals first
    | exact Except.noConfusion h
    | (injection h with h
       subst h
       first
         | exact .inl (validateEmptyStringField_error _ _ ‹_›)
         | exact .inl (validatePositiveNumberField_error _ _ ‹_›)
         | exact .inr (.inl (getProductDataById_error _ _ _ ‹_›))
         | exact .inr (.inr (checkProductActive_error _ _ ‹_›))
         | exact .inr (.inr (checkProductStock_error _ _ _ ‹_›))
         | simp)

/-- Every error removeProductFromCart can throw. -/
theorem removeProductFromCart_error_classify (s : StoreState α)
    (u pid : String) (e : HttpsErr)
    (h : removeProductFromCart s u pid = .error e) :
    e = .invalidArgument ∨ e = .notFound := by
  unfold removeProductFromCart at h
  repeat' split at h
  all_goals first
    | exact Except.noConfusion h
    | (injection h with h
       subst h
       first
         | exact .inl (validateEmptyStringField_error _ _ ‹_›)
         | simp)

/-- Counterexample to claim C8: a caller who does not own the targeted cart
receives NotFound from the cart operations, never PermissionDenied — the
cart is resolved from the caller's identity, so B cannot even see A's cart. -/
theorem nonowner_cart_op_gets_notFound :
    updateProductQuantityInCart sCartA "B" "p" 2 = .error .notFound ∧
    removeProductFromCart sCartA "B" "p" = .error .notFound ∧
    HttpsErr.notFound ≠ HttpsErr.permissionDenied := by
  decide

/-- Claim C8 as amended: product mutations (update_product, remove_product)
by a caller who is not the product's owner fail with PermissionDenied and by
the owner succeed; the cart-line operations resolve the cart from the
caller, so a caller with no pending cart of their own gets NotFound, and no
cart-line operation ever returns PermissionDenied. -/
theorem ownership_enforcement (s : StoreState α) (uid pid : String)
    (upd : ProductUpdates α) (prod : ProductData α)
    (hval : validateEmptyStringField pid = .ok ())
    (hfind : findProduct s pid = some prod) :
    (prod.owner ≠ uid →
      updateProduct s uid pid upd = .error .permissionDenied ∧
      removeProduct s uid pid = .error .permissionDenied) ∧
    (prod.owner = uid →
      (updateProduct s uid pid upd).isOk = true ∧
      (removeProduct s uid pid).isOk = true) ∧
    (pendingCarts s uid = [] → ∀ q : α,
      removeProductFromCart s uid pid = .error .notFound ∧
      (0 < q → updateProductQuantityInCart s uid pid q =
        .error .notFound)) ∧
    (∀ q e, updateProductQuantityInCart s uid pid q = .error e →
      e ≠ .permissionDenied) ∧
    (∀ e, removeProductFromCart s uid pid = .error e →
      e ≠ .permissionDenied) := by
  have hgp : getProductDataById s pid = .ok prod := by
    unfold getProductDataById
    rw [hfind]
  refine ⟨?_, ?_, ?_, ?_, ?_⟩
  · intro hown
    constructor
    · unfold updateProduct
      simp [hval, hgp, hown]
    · unfold removeProduct
      simp [hval, hgp, hown]
  · intro hown
    constructor
    · unfold updateProduct
      simp [hval, hgp, hown, Except.isOk, Except.toBool]
    · unfold removeProduct
      simp [hval, hgp, hown, Except.isOk, Except.toBool]
  · intro hnil q
    have hfp : firstPending s uid = none := by
      unfold firstPending
      rw [hnil]
      rfl
    constructor
    · unfold removeProductFromCart
      simp [hval, hfp]
    · intro hq
      have hvq : validatePositiveNumberField q = .ok () :=
        validatePositiveNumberField_ok q (not_le.mpr hq)
      unfold updateProductQuantityInCart
      simp [hval, hvq, hfp]
  · intro q e h
    rcases updateProductQuantityInCart_error_classify s uid pid q e h with
      h1 | h1 | h1 <;> simp [h1]
  · intro e h
    rcases removeProductFromCart_error_classify s uid pid e h with
      h1 | h1 <;> simp [h1]

/-- Claim C9: RemoveLine never consults the product catalog — the result on
the carts is the same for any state with the same carts — it succeeds and
deletes the mapping key whenever the pending cart has the line (even if no
such product exists in the catalog), and it fails only with NotFound, only
when there is no pending cart or no line for the product. -/
theorem removeLine_no_catalog (s : StoreState α) (u pid : String)
    (hval : validateEmptyStringField pid = .ok ()) :
    (∀ t : StoreState α, t.carts = s.carts →
      (removeProductFromCart t u pid).map (fun x => x.carts) =
        (removeProductFromCart s u pid).map (fun x => x.carts)) ∧
    (firstPending s u = none →
      removeProductFromCart s u pid = .error .notFound) ∧
    (∀ c, firstPending s u = some c → lookupLine c.products pid = none →
      removeProductFromCart s u pid = .error .notFound) ∧
    (∀ e, removeProductFromCart s u pid = .error e → e = .notFound) ∧
    (∀ c line, firstPending s u = some c →
      lookupLine c.products pid = some line →
      ∃ s' c', removeProductFromCart s u pid = .ok s' ∧
        s'.products = s.products ∧
        firstPending s' u = some c' ∧
        c'.owner = c.owner ∧ c'.status = c.status ∧
        lookupLine c'.products pid = none ∧
        ∀ p', p' ≠ pid →
          lookupLine c'.products p' = lookupLine c.products p') := by
  refine ⟨?_, ?_, ?_, ?_, ?_⟩
  · intro t ht
    have h1 : firstPending t u = firstPending s u := by
      unfold firstPending pendingCarts
      rw [ht]
    unfold removeProductFromCart
    simp only [hval]
    cases hfp : firstPending s u with
    | none =>
        rw [h1.trans hfp]
    | some c =>
        rw [h1.trans hfp]
        cases hl : lookupLine c.products pid with
        | none => simp [hl]
        | some line => simp [hl, ht, Except.map]
  · intro hfp
    unfold removeProductFromCart
    simp [hval, hfp]
  · intro c hfp hline
    unfold removeProductFromCart
    simp [hval, hfp, hline]
  · intro e h
    unfold removeProductFromCart at h
    simp only [hval] at h
    repeat' split at h
    all_goals first
      | exact Except.noConfusion h
      | (injection h with h; exact h.symm)
  · intro c line hfp hline
    obtain ⟨r, hr⟩ := firstPending_eq_cons s u c hfp
    have hmem : isPendingOf u c = true := by
      have hcmem : c ∈ pendingCarts s u := by
        rw [hr]
        exact List.mem_cons_self c r
      exact List.of_mem_filter hcmem
    have hres : removeProductFromCart s u pid = .ok (withCarts s
        (updateFirstWhere (isPendingOf u)
          (fun d => { d with products := removeLineKey d.products pid })
          s.carts)) := by
      unfold removeProductFromCart
      simp only [hval, hfp, hline]
      simp [withCarts]
    have hfc : isPendingOf u ({ c with
        products := removeLineKey c.products pid }) = true :=
      (isPendingOf_set_products u c _).trans hmem
    have hfilter := filter_updateFirstWhere_head (isPendingOf u)
      (fun d => { d with products := removeLineKey d.products pid })
      s.carts c r hr hfc
    refine ⟨_, { c with products := removeLineKey c.products pid },
      hres, rfl, ?_, rfl, rfl, ?_, ?_⟩
    · unfold firstPending pendingCarts
      show ((updateFirstWhere (isPendingOf u)
        (fun d => { d with products := removeLineKey d.products pid })
        s.carts).filter (isPendingOf u)).head? = some _
      rw [hfilter]
      rfl
    · show lookupLine (removeLineKey c.products pid) pid = none
      exact lookupLine_removeLineKey_self c.products pid
    · intro p' hp'
      show lookupLine (removeLineKey c.products pid) p' =
        lookupLine c.products p'
      exact lookupLine_removeLineKey_ne c.products pid p' hp'

/-- Claim C10: get_product_by_id returns an inactive product's data to its
owner; a non-owner caller requesting an inactive product gets Unavailable;
and an active product is returned to any authenticated caller. -/
theorem get_product_visibility (s : StoreState α) (u pid : String)
    (prod : ProductData α)
    (hval : validateEmptyStringField pid = .ok ())
    (hfind : findProduct s pid = some prod) :
    (prod.owner = u → getProductById s u pid = .ok prod) ∧
    (prod.owner ≠ u → prod.active = false →
      getProductById s u pid = .error .unavailable) ∧
    (prod.active = true → getProductById s u pid = .ok prod) := by
  have hgp : getProductDataById s pid = .ok prod := by
    unfold getProductDataById
    rw [hfind]
  refine ⟨?_, ?_, ?_⟩
  · intro hown
    unfold getProductById
    simp [hval, hgp, hown]
  · intro hown hact
    unfold getProductById
    simp [hval, hgp, hown, checkProductActive, hact]
  · intro hact
    by_cases hown : prod.owner = u
    · unfold getProductById
      simp [hval, hgp, hown]
    · unfold getProductById
      simp [hval, hgp, hown, checkProductActive, hact]

/-- Witness for C3 at state sNoCart, owner U, product p, qty 2. -/
theorem addLine_postconditions_witness :
    validateEmptyStringField "p" = .ok () ∧ (0 : Int) < 2 ∧
    findProduct sNoCart "p" = some prodP ∧ prodP.active = true ∧
    checkProductStock prodP (2 : Int) = .ok () ∧
    ((pendingCarts sNoCart "U" = [] →
      addProductToCart sNoCart "U" "p" 2 = .ok (withCarts sNoCart
        (sNoCart.carts ++
          [⟨"U", "pending", [("p", ⟨"p", prodP.price, 2⟩)]⟩]))) ∧
     (∀ c line, firstPending sNoCart "U" = some c →
       lookupLine c.products "p" = some line →
       ∃ s' c', addProductToCart sNoCart "U" "p" 2 = .ok s' ∧
         s'.products = sNoCart.products ∧
         firstPending s' "U" = some c' ∧
         c'.owner = c.owner ∧ c'.status = c.status ∧
         lookupLine c'.products "p" =
           some ⟨line.id, line.price, line.quantity + 2⟩ ∧
         ∀ p', p' ≠ "p" →
           lookupLine c'.products p' = lookupLine c.products p') ∧
     (∀ c, firstPending sNoCart "U" = some c →
       lookupLine c.products "p" = none →
       ∃ s' c', addProductToCart sNoCart "U" "p" 2 = .ok s' ∧
         s'.products = sNoCart.products ∧
         firstPending s' "U" = some c' ∧
         c'.owner = c.owner ∧ c'.status = c.status ∧
         lookupLine c'.products "p" = some ⟨"p", prodP.price, 2⟩ ∧
         ∀ p', p' ≠ "p" →
           lookupLine c'.products p' = lookupLine c.products p')) :=
  ⟨by decide, by decide, by decide, by decide, by decide,
    addLine_postconditions sNoCart "U" "p" 2 prodP (by decide) (by decide)
      (by decide) (by decide) (by decide)⟩

/-- Witness for C6 at state sCartA, owner A, product p, qty 3. -/
theorem updateLine_semantics_witness :
    validateEmptyStringField "p" = .ok () ∧ (0 : Int) < 3 ∧
    ((firstPending sCartA "A" = none →
      updateProductQuantityInCart sCartA "A" "p" 3 = .error .notFound) ∧
     (∀ c, firstPending sCartA "A" = some c →
       lookupLine c.products "p" = none →
       updateProductQuantityInCart sCartA "A" "p" 3 = .error .notFound) ∧
     (∀ c line prod, firstPending sCartA "A" = some c →
       lookupLine c.products "p" = some line →
       findProduct sCartA "p" = some prod → prod.active = true →
       0 < prod.stock → prod.stock < 3 →
       updateProductQuantityInCart sCartA "A" "p" 3 =
         .error .unavailable) ∧
     (∀ c line prod, firstPending sCartA "A" = some c →
       lookupLine c.products "p" = some line →
       findProduct sCartA "p" = some prod → prod.active = true →
       checkProductStock prod (3 : Int) = .ok () →
       ∃ s' c', updateProductQuantityInCart sCartA "A" "p" 3 = .ok s' ∧
         s'.products = sCartA.products ∧
         firstPending s' "A" = some c' ∧
         c'.owner = c.owner ∧ c'.status = c.status ∧
         lookupLine c'.products "p" = some ⟨line.id, line.price, 3⟩ ∧
         ∀ p', p' ≠ "p" →
           lookupLine c'.products p' = lookupLine c.products p')) :=
  ⟨by decide, by decide,
    updateLine_semantics sCartA "A" "p" 3 (by decide) (by decide)⟩

/-- Witness for the amended C8 at state sCartA: caller B does not own
product p (SELLER does) and has no pending cart. -/
theorem ownership_enforcement_witness :
    validateEmptyStringField "p" = .ok () ∧
    findProduct sCartA "p" = some prodP ∧
    ((prodP.owner ≠ "B" →
      updateProduct sCartA "B" "p" noUpdates = .error .permissionDenied ∧
      removeProduct sCartA "B" "p" = .error .permissionDenied) ∧
     (prodP.owner = "B" →
      (updateProduct sCartA "B" "p" noUpdates).isOk = true ∧
      (removeProduct sCartA "B" "p").isOk = true) ∧
     (pendingCarts sCartA "B" = [] → ∀ q : Int,
       removeProductFromCart sCartA "B" "p" = .error .notFound ∧
       (0 < q → updateProductQuantityInCart sCartA "B" "p" q =
         .error .notFound)) ∧
     (∀ q e, updateProductQuantityInCart sCartA "B" "p" q = .error e →
       e ≠ .permissionDenied) ∧
     (∀ e, removeProductFromCart sCartA "B" "p" = .error e →
       e ≠ .permissionDenied)) :=
  ⟨by decide, by decide,
    ownership_enforcement sCartA "B" "p" noUpdates prodP (by decide)
      (by decide)⟩

/-- Witness for C9 at state sCartA, owner A, product p. -/
theorem removeLine_no_catalog_witness :
    validateEmptyStringField "p" = .ok () ∧
    ((∀ t : StoreState Int, t.carts = sCartA.carts →
      (removeProductFromCart t "A" "p").map (fun x => x.carts) =
        (removeProductFromCart sCartA "A" "p").map (fun x => x.carts)) ∧
     (firstPending sCartA "A" = none →
       removeProductFromCart sCartA "A" "p" = .error .notFound) ∧
     (∀ c, firstPending sCartA "A" = some c →
       lookupLine c.products "p" = none →
       removeProductFromCart sCartA "A" "p" = .error .notFound) ∧
     (∀ e, removeProductFromCart sCartA "A" "p" = .error e →
       e = .notFound) ∧
     (∀ c line, firstPending sCartA "A" = some c →
       lookupLine c.products "p" = some line →
       ∃ s' c', removeProductFromCart sCartA "A" "p" = .ok s' ∧
         s'.products = sCartA.products ∧
         firstPending s' "A" = some c' ∧
         c'.owner = c.owner ∧ c'.status = c.status ∧
         lookupLine c'.products "p" = none ∧
         ∀ p', p' ≠ "p" →
           lookupLine c'.products p' = lookupLine c.products p')) :=
  ⟨by decide, removeLine_no_catalog sCartA "A" "p" (by decide)⟩

/-- Witness for C10 at state sNoCart: product q is inactive and owned by
SELLER, who can read it back. -/
theorem get_product_visibility_witness :
    validateEmptyStringField "q" = .ok () ∧
    findProduct sNoCart "q" = some prodQ ∧
    ((prodQ.owner = "SELLER" →
      getProductById sNoCart "SELLER" "q" = .ok prodQ) ∧
     (prodQ.owner ≠ "SELLER" → prodQ.active = false →
      getProductById sNoCart "SELLER" "q" = .error .unavailable) ∧
     (prodQ.active = true →
      getProductById sNoCart "SELLER" "q" = .ok prodQ)) :=
  ⟨by decide, by decide,
    get_product_visibility sNoCart "SELLER" "q" prodQ (by decide)
      (by decide)⟩

end HondaStore
